import Mathlib

/-!
Shallow embedding of `refcell-lock-api` (src/src/raw.rs, src/build.rs):
a single-threaded RwLock/Mutex built on a RefCell-style signed borrow
counter, exposed through the `lock_api` trait shapes.

Modelling conventions:
* `isize` counts are `Int`; the only place overflow matters in the source
  is `checked_add(1)` in `try_borrow_shared`, which fails exactly at
  `isize::MAX = 2^63 - 1`.
* `&'static Location<'static>` (a source position) is an abstract token,
  modelled as `Nat`; `#[track_caller]` entry points take it as an explicit
  `caller` argument.
* The `cfg(debug_location)` build switch (src/build.rs) is a `Bool`
  parameter `dbg`.  When the switch is off the Rust struct has no
  `earliest_borrow_location` field; we keep the field but guard every
  access with `dbg`, which is observationally identical (a disabled build
  starts at `none` and never writes the field).
* A Rust method mutating `&self` through `Cell` becomes a function
  returning the new state.  A panic (`panic!`, `expect`, the `assert_eq!`)
  becomes the `fatal` constructor carrying the panic message.
* `debug_assert!` lines are compiled out under `cfg(not(debug_assertions))`
  and are independent of `debug_location`; we model the release behaviour
  (the asserts do not appear), and state unlock preconditions as theorem
  hypotheses instead.
-/

/-- `isize::MAX` on a 64-bit target. -/
def isizeMAX : Int := 2 ^ 63 - 1

/-- Source positions (`core::panic::Location`), abstracted to tokens. -/
abbrev Loc := Nat

/-- `struct BorrowFlag { count: isize }` (raw.rs:71-74). -/
structure BorrowFlag where
  count : Int
deriving DecidableEq, Repr

/-- `enum BorrowState` (raw.rs:91-96). -/
inductive BorrowState where
  | MutableBorrow
  | Unused
  | SharedBorrow
deriving DecidableEq, Repr

/-- `BorrowFlag::state` (raw.rs:77-88): sign test on the count. -/
def BorrowFlag.state (self : BorrowFlag) : BorrowState :=
  if self.count < 0 then .MutableBorrow
  else if self.count > 0 then .SharedBorrow
  else .Unused

/-- `BorrowFlag::UNUSED` (raw.rs:76). -/
def BorrowFlag.UNUSED : BorrowFlag := ⟨0⟩

/-- `struct CellRwLock` (raw.rs:102-114).  The second field exists in the
source only under `cfg(debug_location)`; see the module conventions. -/
structure CellRwLock where
  borrow_count : BorrowFlag
  earliest_borrow_location : Option Loc
deriving DecidableEq, Repr

/-- `CellRwLock::INIT` (raw.rs:213-217). -/
def CellRwLock.INIT : CellRwLock := ⟨BorrowFlag.UNUSED, none⟩

/-- The accessor `CellRwLock::earliest_borrow_location` (raw.rs:117-127):
returns the stored field under `cfg(debug_location)`, `None` otherwise. -/
def CellRwLock.earliestBorrowLocation (dbg : Bool) (self : CellRwLock) :
    Option Loc :=
  if dbg then self.earliest_borrow_location else none

/-- `struct BorrowFailError` (raw.rs:177-181). -/
structure BorrowFailError where
  is_exclusive : Bool
  existing_location : Option Loc
deriving DecidableEq, Repr

/-- `impl Display for BorrowFailError` (raw.rs:190-210): the text of the
diagnostic, also used as the panic message by `BorrowFailError::panic`. -/
def BorrowFailError.message (self : BorrowFailError) : String :=
  "Unable to " ++ (if self.is_exclusive then "exclusively " else "")
    ++ "borrow"
    ++ match self.existing_location with
       | some existing_location =>
           ": " ++ (if self.is_exclusive then "Already" else "Exclusively")
             ++ " borrowed at " ++ toString existing_location
       | none => ""

/-- Outcome of a `try_borrow_*` call: `Ok(())` with the new state, an
`Err(BorrowFailError)` with the (unchanged) state, or a panic. -/
inductive TryResult where
  | ok (s : CellRwLock)
  | err (e : BorrowFailError) (s : CellRwLock)
  | fatal (msg : String)
deriving DecidableEq, Repr

/-- `CellRwLock::try_borrow_exclusively` (raw.rs:131-144).  The inner
branch is the source's `assert_eq!(count, 0)`; on success the count is set
to `-1` and, under `cfg(debug_location)`, `Location::caller()` is stored. -/
def CellRwLock.try_borrow_exclusively (dbg : Bool) (caller : Loc)
    (self : CellRwLock) : TryResult :=
  if self.borrow_count.state = .Unused then
    if self.borrow_count.count = 0 then
      .ok { borrow_count := ⟨-1⟩,
            earliest_borrow_location :=
              if dbg then some caller else self.earliest_borrow_location }
    else
      .fatal "assertion failed"
  else
    .err ⟨true, self.earliestBorrowLocation dbg⟩ self

/-- `CellRwLock::try_borrow_shared` (raw.rs:148-175).  The increment uses
`checked_add(1).expect("Overflow shared borrows")`, which panics exactly
when the count is `isize::MAX`.  No borrow location is recorded here. -/
def CellRwLock.try_borrow_shared (dbg : Bool) (self : CellRwLock) :
    TryResult :=
  if self.borrow_count.state = .Unused ∨
      self.borrow_count.state = .SharedBorrow then
    if self.borrow_count.count = isizeMAX then
      .fatal "Overflow shared borrows"
    else
      .ok { self with borrow_count := ⟨self.borrow_count.count + 1⟩ }
  else
    .err ⟨false, self.earliestBorrowLocation dbg⟩ self

/-- `RawRwLock::is_locked` for `CellRwLock` (raw.rs:284-290). -/
def CellRwLock.is_locked (self : CellRwLock) : Bool :=
  match self.borrow_count.state with
  | .Unused => false
  | .MutableBorrow | .SharedBorrow => true

/-- `RawRwLock::is_locked_exclusive` for `CellRwLock` (raw.rs:292-295). -/
def CellRwLock.is_locked_exclusive (self : CellRwLock) : Bool :=
  match self.borrow_count.state with
  | .MutableBorrow => true
  | _ => false

/-- `RawRwLock::unlock_shared` (raw.rs:241-253): decrement, then under
`cfg(debug_location)` clear the location once no longer locked. -/
def CellRwLock.unlock_shared (dbg : Bool) (self : CellRwLock) : CellRwLock :=
  let next : CellRwLock :=
    { self with borrow_count := ⟨self.borrow_count.count - 1⟩ }
  if !next.is_locked then
    if dbg then { next with earliest_borrow_location := none } else next
  else
    next

/-- `RawRwLock::unlock_exclusive` (raw.rs:270-282): increment toward zero,
then under `cfg(debug_location)` clear the location once unlocked. -/
def CellRwLock.unlock_exclusive (dbg : Bool) (self : CellRwLock) :
    CellRwLock :=
  let next : CellRwLock :=
    { self with borrow_count := ⟨self.borrow_count.count + 1⟩ }
  if !next.is_locked then
    if dbg then { next with earliest_borrow_location := none } else next
  else
    next

/-- Outcome of a blocking entry point: success or a panic with the
`Display` text of the `BorrowFailError` (via `BorrowFailError::panic`). -/
inductive LockResult where
  | ok (s : CellRwLock)
  | fatal (msg : String)
deriving DecidableEq, Repr

/-- `RawRwLock::lock_shared` (raw.rs:220-233): panic on failure. -/
def CellRwLock.lock_shared (dbg : Bool) (self : CellRwLock) : LockResult :=
  match self.try_borrow_shared dbg with
  | .ok s => .ok s
  | .err e _ => .fatal e.message
  | .fatal msg => .fatal msg

/-- `RawRwLock::try_lock_shared` (raw.rs:235-239): `is_ok()` as a Bool.
`none` models the call itself panicking (the overflow `expect`). -/
def CellRwLock.try_lock_shared (dbg : Bool) (self : CellRwLock) :
    Option (Bool × CellRwLock) :=
  match self.try_borrow_shared dbg with
  | .ok s => some (true, s)
  | .err _ s => some (false, s)
  | .fatal _ => none

/-- `RawRwLock::lock_exclusive` (raw.rs:255-262): panic on failure. -/
def CellRwLock.lock_exclusive (dbg : Bool) (caller : Loc)
    (self : CellRwLock) : LockResult :=
  match self.try_borrow_exclusively dbg caller with
  | .ok s => .ok s
  | .err e _ => .fatal e.message
  | .fatal msg => .fatal msg

/-- `RawRwLock::try_lock_exclusive` (raw.rs:264-268). -/
def CellRwLock.try_lock_exclusive (dbg : Bool) (caller : Loc)
    (self : CellRwLock) : Option (Bool × CellRwLock) :=
  match self.try_borrow_exclusively dbg caller with
  | .ok s => some (true, s)
  | .err _ s => some (false, s)
  | .fatal _ => none

/-- `RawRwLockRecursive::lock_shared_recursive` (raw.rs:297-302). -/
def CellRwLock.lock_shared_recursive (dbg : Bool) (self : CellRwLock) :
    LockResult :=
  self.lock_shared dbg

/-- `RawRwLockRecursive::try_lock_shared_recursive` (raw.rs:304-308). -/
def CellRwLock.try_lock_shared_recursive (dbg : Bool) (self : CellRwLock) :
    Option (Bool × CellRwLock) :=
  self.try_lock_shared dbg

/-- `pub struct CellMutex(CellRwLock)` (raw.rs:18). -/
structure CellMutex where
  cell : CellRwLock
deriving DecidableEq, Repr

/-- `RawMutex::lock` for `CellMutex` (raw.rs:24-28). -/
def CellMutex.lock (dbg : Bool) (caller : Loc) (self : CellMutex) :
    LockResult :=
  self.cell.lock_exclusive dbg caller

/-- `RawMutex::try_lock` for `CellMutex` (raw.rs:30-34). -/
def CellMutex.try_lock (dbg : Bool) (caller : Loc) (self : CellMutex) :
    Option (Bool × CellRwLock) :=
  self.cell.try_lock_exclusive dbg caller

/-- `RawMutex::unlock` for `CellMutex` (raw.rs:36-40). -/
def CellMutex.unlock (dbg : Bool) (self : CellMutex) : CellRwLock :=
  self.cell.unlock_exclusive dbg

/-- `RawMutex::is_locked` for `CellMutex` (raw.rs:42-46). -/
def CellMutex.is_locked (self : CellMutex) : Bool :=
  self.cell.is_locked

/-- States reachable from `INIT` by precondition-respecting operations:
successful acquires, and releases called only while the matching borrow is
held (the documented `unsafe` contract of `unlock_shared` /
`unlock_exclusive`).  Failed `try_borrow_*` calls do not change the state
(they return it unchanged), so they add no transitions. -/
inductive Reachable (dbg : Bool) : CellRwLock → Prop where
  | init : Reachable dbg CellRwLock.INIT
  | shared_ok {s s' : CellRwLock} :
      Reachable dbg s → s.try_borrow_shared dbg = .ok s' → Reachable dbg s'
  | excl_ok {s s' : CellRwLock} {caller : Loc} :
      Reachable dbg s → s.try_borrow_exclusively dbg caller = .ok s' →
      Reachable dbg s'
  | release_shared {s : CellRwLock} :
      Reachable dbg s → s.borrow_count.state = .SharedBorrow →
      Reachable dbg (s.unlock_shared dbg)
  | release_exclusive {s : CellRwLock} :
      Reachable dbg s → s.borrow_count.state = .MutableBorrow →
      Reachable dbg (s.unlock_exclusive dbg)

/-- Sign characterization: `Unused` is exactly count `0`. -/
theorem BorrowFlag.state_unused_iff (f : BorrowFlag) :
    f.state = .Unused ↔ f.count = 0 := by
  unfold BorrowFlag.state
  split_ifs <;> simp <;> omega

/-- Sign characterization: `MutableBorrow` is exactly a negative count. -/
theorem BorrowFlag.state_mut_iff (f : BorrowFlag) :
    f.state = .MutableBorrow ↔ f.count < 0 := by
  unfold BorrowFlag.state
  split_ifs <;> simp <;> omega

/-- Sign characterization: `SharedBorrow` is exactly a positive count. -/
theorem BorrowFlag.state_shared_iff (f : BorrowFlag) :
    f.state = .SharedBorrow ↔ 0 < f.count := by
  unfold BorrowFlag.state
  split_ifs <;> simp <;> omega

/-- A state admitted by the shared-acquire guard has a nonnegative count. -/
theorem count_nonneg_of_shared_guard {f : BorrowFlag}
    (h : f.state = .Unused ∨ f.state = .SharedBorrow) : 0 ≤ f.count := by
  rcases h with h | h
  · have := (BorrowFlag.state_unused_iff f).mp h
    omega
  · have := (BorrowFlag.state_shared_iff f).mp h
    omega

/-- `isize::MAX` is positive. -/
theorem isizeMAX_pos : (0 : Int) < isizeMAX := by
  norm_num [isizeMAX]

/-- C1: an exclusive acquire succeeds iff the counter state is `Unused`;
on success the count becomes exactly `-1`; in every other state (any
shared or exclusive borrow outstanding) it does not succeed. -/
theorem exclusive_acquire_iff_unused (dbg : Bool) (caller : Loc)
    (s : CellRwLock) :
    ((∃ s', s.try_borrow_exclusively dbg caller = .ok s') ↔
        s.borrow_count.state = .Unused) ∧
      ∀ s', s.try_borrow_exclusively dbg caller = .ok s' →
        s'.borrow_count.count = -1 := by
  unfold CellRwLock.try_borrow_exclusively
  by_cases h : s.borrow_count.state = .Unused
  · have hc : s.borrow_count.count = 0 :=
      (BorrowFlag.state_unused_iff _).mp h
    simp only [h, hc, if_true, if_pos rfl]
    constructor
    · simp
    · intro s' hs'
      simp only [TryResult.ok.injEq] at hs'
      subst hs'
      rfl
  · simp [h]

/-- C1 witness: the property at `dbg = true`, caller `7`, the fresh lock. -/
theorem exclusive_acquire_iff_unused_witness :
    ((∃ s', CellRwLock.INIT.try_borrow_exclusively true 7 = .ok s') ↔
        CellRwLock.INIT.borrow_count.state = .Unused) ∧
      ∀ s', CellRwLock.INIT.try_borrow_exclusively true 7 = .ok s' →
        s'.borrow_count.count = -1 :=
  exclusive_acquire_iff_unused true 7 CellRwLock.INIT

/-- C2 counterexample: at count `isize::MAX` the state is `SharedBorrow`,
yet a shared acquire does not succeed — it panics on the overflow check —
so "succeeds iff the state is Unused or SharedBorrow" fails there. -/
theorem shared_acquire_max_counterexample :
    (BorrowFlag.mk isizeMAX).state = .SharedBorrow ∧
      CellRwLock.try_borrow_shared true ⟨⟨isizeMAX⟩, none⟩ =
        .fatal "Overflow shared borrows" := by
  constructor
  · rw [BorrowFlag.state_shared_iff]
    exact isizeMAX_pos
  · unfold CellRwLock.try_borrow_shared
    have h : (BorrowFlag.mk isizeMAX).state = .SharedBorrow := by
      rw [BorrowFlag.state_shared_iff]
      exact isizeMAX_pos
    simp [h]

/-- C2 amended: a shared acquire succeeds iff the state is `Unused` or
`SharedBorrow` AND the count is below `isize::MAX` (at the maximum it
aborts instead); it returns an error exactly when the state is
`MutableBorrow`; on success the count grows by exactly `1` and the
resulting state is not `Unused` (so a release is needed to return there). -/
theorem shared_acquire_amended (dbg : Bool) (s : CellRwLock) :
    ((∃ s', s.try_borrow_shared dbg = .ok s') ↔
        ((s.borrow_count.state = .Unused ∨
            s.borrow_count.state = .SharedBorrow) ∧
          s.borrow_count.count ≠ isizeMAX)) ∧
      ((∃ e s', s.try_borrow_shared dbg = .err e s') ↔
        s.borrow_count.state = .MutableBorrow) ∧
      ∀ s', s.try_borrow_shared dbg = .ok s' →
        s'.borrow_count.count = s.borrow_count.count + 1 ∧
          s'.borrow_count.state ≠ .Unused := by
  unfold CellRwLock.try_borrow_shared
  by_cases h : s.borrow_count.state = .Unused ∨
      s.borrow_count.state = .SharedBorrow
  · have hnonneg : 0 ≤ s.borrow_count.count := count_nonneg_of_shared_guard h
    have hnotmut : ¬s.borrow_count.state = .MutableBorrow := by
      rw [BorrowFlag.state_mut_iff]
      omega
    by_cases hmax : s.borrow_count.count = isizeMAX
    · simp [h, hmax, hnotmut]
    · simp only [h, if_true, hmax, if_false, if_neg hmax, if_pos h]
      refine ⟨by simp [h, hmax], by simp [hnotmut], ?_⟩
      intro s' hs'
      simp only [TryResult.ok.injEq] at hs'
      subst hs'
      refine ⟨rfl, ?_⟩
      rw [Ne, BorrowFlag.state_unused_iff]
      simp only []
      omega
  · have hmut : s.borrow_count.state = .MutableBorrow := by
      cases hst : s.borrow_count.state <;> simp [hst] at h ⊢
    simp [h, hmut]

/-- C2 witness: the amended property at `dbg = true` on the fresh lock. -/
theorem shared_acquire_amended_witness :
    ((∃ s', CellRwLock.INIT.try_borrow_shared true = .ok s') ↔
        ((CellRwLock.INIT.borrow_count.state = .Unused ∨
            CellRwLock.INIT.borrow_count.state = .SharedBorrow) ∧
          CellRwLock.INIT.borrow_count.count ≠ isizeMAX)) ∧
      ((∃ e s', CellRwLock.INIT.try_borrow_shared true = .err e s') ↔
        CellRwLock.INIT.borrow_count.state = .MutableBorrow) ∧
      ∀ s', CellRwLock.INIT.try_borrow_shared true = .ok s' →
        s'.borrow_count.count = CellRwLock.INIT.borrow_count.count + 1 ∧
          s'.borrow_count.state ≠ .Unused :=
  shared_acquire_amended true CellRwLock.INIT

/-- C6: a failed acquire (shared or exclusive) returns the state
unchanged, and the error carries `is_exclusive = true` for an exclusive
attempt, `false` for a shared attempt, together with the lock's current
earliest borrow location. -/
theorem failed_acquire_preserves_state (dbg : Bool) (caller : Loc)
    (s : CellRwLock) :
    (∀ e s', s.try_borrow_exclusively dbg caller = .err e s' →
        s' = s ∧ e.is_exclusive = true ∧
          e.existing_location = s.earliestBorrowLocation dbg) ∧
      ∀ e s', s.try_borrow_shared dbg = .err e s' →
        s' = s ∧ e.is_exclusive = false ∧
          e.existing_location = s.earliestBorrowLocation dbg := by
  constructor
  · intro e s' h
    unfold CellRwLock.try_borrow_exclusively at h
    split_ifs at h
    all_goals simp_all
    obtain ⟨he, hs⟩ := h
    subst he
    subst hs
    exact ⟨rfl, rfl⟩
  · intro e s' h
    unfold CellRwLock.try_borrow_shared at h
    split_ifs at h
    all_goals simp_all
    obtain ⟨he, hs⟩ := h
    subst he
    subst hs
    exact ⟨rfl, rfl⟩

/-- C6 witness: failing instances at `dbg = true` against an exclusive
holder at location `5` (count `-1`). -/
theorem failed_acquire_preserves_state_witness :
    CellRwLock.mk ⟨-1⟩ (some 5) = CellRwLock.mk ⟨-1⟩ (some 5) ∧
      (BorrowFailError.mk false (some 5)).is_exclusive = false ∧
      (BorrowFailError.mk false (some 5)).existing_location =
        (CellRwLock.mk ⟨-1⟩ (some 5)).earliestBorrowLocation true :=
  (failed_acquire_preserves_state true 9 (CellRwLock.mk ⟨-1⟩ (some 5))).2
    ⟨false, some 5⟩ (CellRwLock.mk ⟨-1⟩ (some 5)) (by decide)

/-- C8: at count exactly `isize::MAX` a shared acquire is an unconditional
panic, even through `try_lock_shared`; for every count strictly below the
maximum it never panics, and when it succeeds the increment is exactly 1. -/
theorem shared_overflow_fatal (dbg : Bool) (s : CellRwLock) :
    (s.borrow_count.count = isizeMAX →
        s.try_borrow_shared dbg = .fatal "Overflow shared borrows" ∧
          s.try_lock_shared dbg = none) ∧
      (s.borrow_count.count < isizeMAX →
        (∀ msg, s.try_borrow_shared dbg ≠ .fatal msg) ∧
          ∀ s', s.try_borrow_shared dbg = .ok s' →
            s'.borrow_count.count = s.borrow_count.count + 1) := by
  constructor
  · intro hmax
    have hst : s.borrow_count.state = .SharedBorrow := by
      rw [BorrowFlag.state_shared_iff]
      rw [hmax]
      exact isizeMAX_pos
    have hfatal : s.try_borrow_shared dbg = .fatal "Overflow shared borrows" := by
      unfold CellRwLock.try_borrow_shared
      simp [hst, hmax]
    refine ⟨hfatal, ?_⟩
    unfold CellRwLock.try_lock_shared
    rw [hfatal]
  · intro hlt
    constructor
    · intro msg h
      unfold CellRwLock.try_borrow_shared at h
      split_ifs at h with h1 h2
      all_goals simp_all
    · intro s' h
      unfold CellRwLock.try_borrow_shared at h
      split_ifs at h
      all_goals simp_all
      subst h
      rfl

/-- C8 witness: the overflow case at count `isize::MAX` and the exact
increment at the fresh lock, both at `dbg = true`. -/
theorem shared_overflow_fatal_witness :
    ((CellRwLock.mk ⟨isizeMAX⟩ none).try_borrow_shared true =
        .fatal "Overflow shared borrows" ∧
      (CellRwLock.mk ⟨isizeMAX⟩ none).try_lock_shared true = none) ∧
      (CellRwLock.mk ⟨1⟩ none).borrow_count.count =
        CellRwLock.INIT.borrow_count.count + 1 :=
  ⟨(shared_overflow_fatal true (CellRwLock.mk ⟨isizeMAX⟩ none)).1 rfl,
    ((shared_overflow_fatal true CellRwLock.INIT).2 (by decide)).2
      (CellRwLock.mk ⟨1⟩ none) (by decide)⟩

/-- C3 (code bug evidence): with diagnostics enabled, a successful shared
acquire from the fresh lock leaves the lock locked (`SharedBorrow`) with
`earliest_borrow_location` still `None` — `try_borrow_shared` never
records a location, contradicting the field's documented invariant that
it should be present whenever `is_locked()`. -/
theorem shared_acquire_records_no_location :
    CellRwLock.INIT.try_borrow_shared true = .ok (CellRwLock.mk ⟨1⟩ none) ∧
      (CellRwLock.mk ⟨1⟩ none).is_locked = true ∧
      (CellRwLock.mk ⟨1⟩ none).earliestBorrowLocation true = none := by
  refine ⟨?_, by decide, by decide⟩
  unfold CellRwLock.try_borrow_shared
  norm_num [BorrowFlag.state_unused_iff, CellRwLock.INIT, BorrowFlag.UNUSED,
    isizeMAX]

/-- C7 (code bug evidence): with diagnostics enabled, after a successful
shared acquire from the fresh lock, a conflicting exclusive attempt
returns an error with `existing_location = None` (the shared holder never
recorded one), and the resulting diagnostic text carries no location at
all: it is exactly "Unable to exclusively borrow". -/
theorem exclusive_conflict_message_lacks_location :
    CellRwLock.INIT.try_borrow_shared true = .ok (CellRwLock.mk ⟨1⟩ none) ∧
      (CellRwLock.mk ⟨1⟩ none).try_borrow_exclusively true 42 =
        .err ⟨true, none⟩ (CellRwLock.mk ⟨1⟩ none) ∧
      (BorrowFailError.mk true none).message =
        "Unable to exclusively borrow" := by
  refine ⟨shared_acquire_records_no_location.1, ?_, rfl⟩
  unfold CellRwLock.try_borrow_exclusively
  decide

/-- Inversion for a successful shared acquire. -/
theorem try_borrow_shared_ok_inv {dbg : Bool} {s s' : CellRwLock}
    (h : s.try_borrow_shared dbg = .ok s') :
    (s.borrow_count.state = .Unused ∨
        s.borrow_count.state = .SharedBorrow) ∧
      s.borrow_count.count ≠ isizeMAX ∧
      s' = { s with borrow_count := ⟨s.borrow_count.count + 1⟩ } := by
  unfold CellRwLock.try_borrow_shared at h
  split_ifs at h with h1 h2
  all_goals simp_all

/-- Inversion for a successful exclusive acquire. -/
theorem try_borrow_exclusively_ok_inv {dbg : Bool} {caller : Loc}
    {s s' : CellRwLock}
    (h : s.try_borrow_exclusively dbg caller = .ok s') :
    s.borrow_count.state = .Unused ∧ s.borrow_count.count = 0 ∧
      s' = { borrow_count := ⟨-1⟩,
             earliest_borrow_location :=
               if dbg then some caller else s.earliest_borrow_location } := by
  unfold CellRwLock.try_borrow_exclusively at h
  split_ifs at h with h1 h2
  all_goals simp_all

/-- A state rejected by the shared-acquire guard is a mutable borrow. -/
theorem mut_of_not_shared_guard {f : BorrowFlag}
    (h : ¬(f.state = .Unused ∨ f.state = .SharedBorrow)) :
    f.state = .MutableBorrow := by
  rcases hst : f.state <;> simp [hst] at h ⊢

/-- Inversion for a failed shared acquire. -/
theorem try_borrow_shared_err_inv {dbg : Bool} {s s' : CellRwLock}
    {e : BorrowFailError} (h : s.try_borrow_shared dbg = .err e s') :
    s.borrow_count.state = .MutableBorrow ∧
      e = ⟨false, s.earliestBorrowLocation dbg⟩ ∧ s' = s := by
  unfold CellRwLock.try_borrow_shared at h
  by_cases h1 : s.borrow_count.state = .Unused ∨
      s.borrow_count.state = .SharedBorrow
  · rw [if_pos h1] at h
    by_cases h2 : s.borrow_count.count = isizeMAX
    · rw [if_pos h2] at h
      cases h
    · rw [if_neg h2] at h
      cases h
  · rw [if_neg h1] at h
    injection h with he hs
    exact ⟨mut_of_not_shared_guard h1, he.symm, hs.symm⟩

/-- Inversion for a failed exclusive acquire. -/
theorem try_borrow_exclusively_err_inv {dbg : Bool} {caller : Loc}
    {s s' : CellRwLock} {e : BorrowFailError}
    (h : s.try_borrow_exclusively dbg caller = .err e s') :
    s.borrow_count.state ≠ .Unused ∧
      e = ⟨true, s.earliestBorrowLocation dbg⟩ ∧ s' = s := by
  unfold CellRwLock.try_borrow_exclusively at h
  by_cases h1 : s.borrow_count.state = .Unused
  · rw [if_pos h1] at h
    by_cases h2 : s.borrow_count.count = 0
    · rw [if_pos h2] at h
      cases h
    · rw [if_neg h2] at h
      cases h
  · rw [if_neg h1] at h
    injection h with he hs
    exact ⟨h1, he.symm, hs.symm⟩

/-- The state invariant maintained by every precondition-respecting run:
the count never drops below `-1`; the stored location is absent at count
`0` and whenever the debug switch is off; and under the debug switch an
exclusive borrow always has a stored location. -/
theorem reachable_inv {dbg : Bool} {s : CellRwLock} (h : Reachable dbg s) :
    -1 ≤ s.borrow_count.count ∧
      (s.borrow_count.count = 0 → s.earliest_borrow_location = none) ∧
      (dbg = false → s.earliest_borrow_location = none) ∧
      (s.borrow_count.count < 0 → dbg = true →
        s.earliest_borrow_location.isSome = true) := by
  induction h with
  | init => simp [CellRwLock.INIT, BorrowFlag.UNUSED]
  | @shared_ok t t' ht hok ih =>
      obtain ⟨hguard, hmax, rfl⟩ := try_borrow_shared_ok_inv hok
      have hc : 0 ≤ t.borrow_count.count := count_nonneg_of_shared_guard hguard
      refine ⟨?_, ?_, ?_, ?_⟩
      · show -1 ≤ t.borrow_count.count + 1
        omega
      · show t.borrow_count.count + 1 = 0 → _
        intro h0
        exact absurd h0 (by omega)
      · exact ih.2.2.1
      · show t.borrow_count.count + 1 < 0 → _
        intro hneg
        exact absurd hneg (by omega)
  | @excl_ok t t' caller ht hok ih =>
      obtain ⟨hst, hc, rfl⟩ := try_borrow_exclusively_ok_inv hok
      refine ⟨le_refl _, ?_, ?_, ?_⟩
      · show (-1 : Int) = 0 → _
        intro h0
        exact absurd h0 (by norm_num)
      · intro hd
        subst hd
        show t.earliest_borrow_location = none
        exact ih.2.2.1 rfl
      · intro _ hd
        subst hd
        rfl
  | @release_shared t ht hpre ih =>
      obtain ⟨⟨c⟩, loc⟩ := t
      have hc : 0 < c := (BorrowFlag.state_shared_iff _).mp hpre
      obtain ⟨-, hzero, hnodbg, -⟩ := ih
      unfold CellRwLock.unlock_shared
      by_cases hone : c = 1
      · subst hone
        have hst : (BorrowFlag.mk (1 - 1 : Int)).state = .Unused := by
          rw [BorrowFlag.state_unused_iff]
          norm_num
        simp only [CellRwLock.is_locked, hst, Bool.not_false]
        rcases dbg with _ | _
        · simp only [if_true, if_false, Bool.false_eq_true]
          refine ⟨by norm_num, ?_, ?_, ?_⟩
          · intro _
            exact hnodbg rfl
          · intro _
            exact hnodbg rfl
          · intro h0
            exact absurd h0 (by norm_num)
        · simp
      · have hst : (BorrowFlag.mk (c - 1)).state = .SharedBorrow := by
          rw [BorrowFlag.state_shared_iff]
          show 0 < c - 1
          omega
        simp only [CellRwLock.is_locked, hst, Bool.not_true, if_false,
          Bool.false_eq_true]
        refine ⟨?_, ?_, hnodbg, ?_⟩
        · show -1 ≤ c - 1
          omega
        · show c - 1 = 0 → _
          intro h0
          exact absurd h0 (by omega)
        · show c - 1 < 0 → _
          intro hneg
          exact absurd hneg (by omega)
  | @release_exclusive t ht hpre ih =>
      obtain ⟨⟨c⟩, loc⟩ := t
      have hc : c < 0 := (BorrowFlag.state_mut_iff _).mp hpre
      obtain ⟨hge, hzero, hnodbg, -⟩ := ih
      have hc1 : c = -1 := by
        have : -1 ≤ c := hge
        omega
      subst hc1
      unfold CellRwLock.unlock_exclusive
      have hst : (BorrowFlag.mk (-1 + 1 : Int)).state = .Unused := by
        rw [BorrowFlag.state_unused_iff]
        norm_num
      simp only [CellRwLock.is_locked, hst, Bool.not_false]
      rcases dbg with _ | _
      · simp only [if_true, if_false, Bool.false_eq_true]
        refine ⟨by norm_num, fun _ => hnodbg rfl, fun _ => hnodbg rfl, ?_⟩
        intro h0
        exact absurd h0 (by norm_num)
      · simp

/-- Releasing one of several shared borrows only decrements the count. -/
theorem unlock_shared_of_ne_one (dbg : Bool) (t : CellRwLock)
    (h1 : t.borrow_count.count ≠ 1) :
    t.unlock_shared dbg =
      { t with borrow_count := ⟨t.borrow_count.count - 1⟩ } := by
  have hst : (BorrowFlag.mk (t.borrow_count.count - 1)).state ≠ .Unused := by
    rw [Ne, BorrowFlag.state_unused_iff]
    show ¬t.borrow_count.count - 1 = 0
    omega
  rcases hs : (BorrowFlag.mk (t.borrow_count.count - 1)).state with _ | _ | _
  · simp [CellRwLock.unlock_shared, CellRwLock.is_locked, hs]
  · exact absurd hs hst
  · simp [CellRwLock.unlock_shared, CellRwLock.is_locked, hs]

/-- Releasing the last shared borrow clears the stored location under the
debug switch. -/
theorem unlock_shared_at_one (dbg : Bool) (t : CellRwLock)
    (h1 : t.borrow_count.count = 1) :
    t.unlock_shared dbg =
      if dbg then
        { t with borrow_count := ⟨0⟩, earliest_borrow_location := none }
      else { t with borrow_count := ⟨0⟩ } := by
  have hst : (BorrowFlag.mk (t.borrow_count.count - 1)).state = .Unused := by
    rw [BorrowFlag.state_unused_iff]
    show t.borrow_count.count - 1 = 0
    omega
  have hst0 : (BorrowFlag.mk (0 : Int)).state = .Unused := by
    rw [BorrowFlag.state_unused_iff]
  rcases dbg with _ | _ <;>
    simp [CellRwLock.unlock_shared, CellRwLock.is_locked, hst, hst0, h1]

/-- Releasing the single exclusive borrow clears the stored location under
the debug switch. -/
theorem unlock_exclusive_at_neg_one (dbg : Bool) (t : CellRwLock)
    (h1 : t.borrow_count.count = -1) :
    t.unlock_exclusive dbg =
      if dbg then
        { t with borrow_count := ⟨0⟩, earliest_borrow_location := none }
      else { t with borrow_count := ⟨0⟩ } := by
  have hst : (BorrowFlag.mk (t.borrow_count.count + 1)).state = .Unused := by
    rw [BorrowFlag.state_unused_iff]
    show t.borrow_count.count + 1 = 0
    omega
  have hst0 : (BorrowFlag.mk (0 : Int)).state = .Unused := by
    rw [BorrowFlag.state_unused_iff]
  rcases dbg with _ | _ <;>
    simp [CellRwLock.unlock_exclusive, CellRwLock.is_locked, hst, hst0, h1]

/-- C4: from any reachable state in which the acquire succeeds, a
successful acquire immediately followed by the matching release returns
the lock, including its diagnostic location field, to exactly its
pre-acquire state. -/
theorem acquire_release_roundtrip (dbg : Bool) (s : CellRwLock)
    (h : Reachable dbg s) :
    (∀ s', s.try_borrow_shared dbg = .ok s' → s'.unlock_shared dbg = s) ∧
      ∀ caller s', s.try_borrow_exclusively dbg caller = .ok s' →
        s'.unlock_exclusive dbg = s := by
  obtain ⟨hge, hzero, hnodbg, -⟩ := reachable_inv h
  obtain ⟨⟨c⟩, loc⟩ := s
  have hzero' : c = 0 → loc = none := hzero
  constructor
  · intro s' hok
    obtain ⟨hguard, hmax, rfl⟩ := try_borrow_shared_ok_inv hok
    have hc : (0 : Int) ≤ c := count_nonneg_of_shared_guard hguard
    by_cases hc0 : c = 0
    · subst hc0
      rw [hzero' rfl]
      rw [unlock_shared_at_one]
      · rcases dbg with _ | _ <;> simp
      · show (0 : Int) + 1 = 1
        norm_num
    · rw [unlock_shared_of_ne_one]
      · show CellRwLock.mk ⟨c + 1 - 1⟩ loc = CellRwLock.mk ⟨c⟩ loc
        have harith : c + 1 - 1 = c := by omega
        rw [harith]
      · show ¬c + 1 = 1
        omega
  · intro caller s' hok
    obtain ⟨hst, hcz, rfl⟩ := try_borrow_exclusively_ok_inv hok
    have hcz' : c = 0 := hcz
    subst hcz'
    rw [hzero' rfl]
    rw [unlock_exclusive_at_neg_one]
    · rcases dbg with _ | _ <;> simp
    · rfl

/-- C4 witness: the round trip at `dbg = true` from the fresh lock, for a
shared acquire and for an exclusive acquire at caller location `3`. -/
theorem acquire_release_roundtrip_witness :
    (CellRwLock.mk ⟨1⟩ none).unlock_shared true = CellRwLock.INIT ∧
      (CellRwLock.mk ⟨-1⟩ (some 3)).unlock_exclusive true =
        CellRwLock.INIT :=
  ⟨(acquire_release_roundtrip true CellRwLock.INIT Reachable.init).1
      (CellRwLock.mk ⟨1⟩ none) (by decide),
    (acquire_release_roundtrip true CellRwLock.INIT Reachable.init).2 3
      (CellRwLock.mk ⟨-1⟩ (some 3)) (by decide)⟩

/-- C10: with diagnostics enabled, in any reachable state the error of a
failed shared acquire carries a present (`some`) existing location — the
one recorded by the exclusive acquire that blocks it. -/
theorem failed_shared_acquire_location_present (s : CellRwLock)
    (h : Reachable true s) (e : BorrowFailError) (s' : CellRwLock)
    (hfail : s.try_borrow_shared true = .err e s') :
    e.existing_location.isSome = true := by
  obtain ⟨hmut, he, -⟩ := try_borrow_shared_err_inv hfail
  obtain ⟨-, -, -, hloc⟩ := reachable_inv h
  subst he
  show (s.earliestBorrowLocation true).isSome = true
  unfold CellRwLock.earliestBorrowLocation
  simp only [if_true]
  exact hloc ((BorrowFlag.state_mut_iff _).mp hmut) rfl

/-- C10 witness: the concrete failure against the exclusive borrow taken
at caller location `5` from the fresh lock. -/
theorem failed_shared_acquire_location_present_witness :
    (BorrowFailError.mk false (some 5)).existing_location.isSome = true :=
  failed_shared_acquire_location_present (CellRwLock.mk ⟨-1⟩ (some 5))
    (@Reachable.excl_ok true CellRwLock.INIT (CellRwLock.mk ⟨-1⟩ (some 5)) 5
      Reachable.init (by decide))
    (BorrowFailError.mk false (some 5)) (CellRwLock.mk ⟨-1⟩ (some 5))
    (by decide)

/-- At count `isize::MAX` the overflow `expect` fires regardless of the
debug switch or the stored location. -/
theorem shared_fatal_at_max (dbg : Bool) (loc : Option Loc) :
    (CellRwLock.mk ⟨isizeMAX⟩ loc).try_borrow_shared dbg =
      .fatal "Overflow shared borrows" := by
  have hst : (BorrowFlag.mk isizeMAX).state = .SharedBorrow := by
    rw [BorrowFlag.state_shared_iff]
    exact isizeMAX_pos
  unfold CellRwLock.try_borrow_shared
  simp [hst]

/-- A shared acquire panics only with the overflow message, and only at
count `isize::MAX`. -/
theorem try_borrow_shared_fatal_inv {dbg : Bool} {s : CellRwLock}
    {msg : String} (h : s.try_borrow_shared dbg = .fatal msg) :
    msg = "Overflow shared borrows" ∧ s.borrow_count.count = isizeMAX := by
  unfold CellRwLock.try_borrow_shared at h
  split_ifs at h with h1 h2
  all_goals simp_all

/-- An exclusive acquire never panics: the `assert_eq!(count, 0)` inside
it is unreachable, because state `Unused` already forces count `0`. -/
theorem try_borrow_exclusively_fatal_inv {dbg : Bool} {caller : Loc}
    {s : CellRwLock} {msg : String}
    (h : s.try_borrow_exclusively dbg caller = .fatal msg) : False := by
  unfold CellRwLock.try_borrow_exclusively at h
  split_ifs at h with h1 h2
  exact h2 ((BorrowFlag.state_unused_iff _).mp h1)

/-- C5 counterexample: `try_lock_shared` is a try entry point, yet at
count `isize::MAX` the call panics (modelled as `none`) instead of
returning a boolean, so "every try entry point never raises" fails. -/
theorem try_entry_point_raises_counterexample :
    CellRwLock.try_lock_shared true (CellRwLock.mk ⟨isizeMAX⟩ none) =
      none := by
  unfold CellRwLock.try_lock_shared
  rw [shared_fatal_at_max true none]

/-- C5 amended: every blocking acquire entry point (`lock`,
`lock_shared`, `lock_exclusive`) either succeeds or panics with a
descriptive diagnostic — the `BorrowFailError` text for a borrow
conflict, and for `lock_shared` also the overflow message at count
`isize::MAX` — in particular `lock_shared` under an exclusive borrow
panics with the full diagnostic rather than failing silently.  Every try
entry point reports conflict as the boolean `false`; `try_lock` and
`try_lock_exclusive` never raise, and `try_lock_shared` never raises
except at count `isize::MAX`, where it aborts instead of returning a
boolean. -/
theorem blocking_and_try_entry_points (dbg : Bool) (caller : Loc)
    (s : CellRwLock) :
    (∀ msg, s.lock_shared dbg = .fatal msg →
        msg = (BorrowFailError.mk false
            (s.earliestBorrowLocation dbg)).message ∨
          msg = "Overflow shared borrows") ∧
      (s.borrow_count.state = .MutableBorrow →
        s.lock_shared dbg =
          .fatal (BorrowFailError.mk false
            (s.earliestBorrowLocation dbg)).message) ∧
      (∀ msg, s.lock_exclusive dbg caller = .fatal msg →
        msg = (BorrowFailError.mk true
          (s.earliestBorrowLocation dbg)).message) ∧
      (∀ msg, CellMutex.lock dbg caller ⟨s⟩ = .fatal msg →
        msg = (BorrowFailError.mk true
          (s.earliestBorrowLocation dbg)).message) ∧
      (s.borrow_count.state = .MutableBorrow →
        s.try_lock_shared dbg = some (false, s)) ∧
      (s.borrow_count.state ≠ .Unused →
        s.try_lock_exclusive dbg caller = some (false, s)) ∧
      (s.borrow_count.state ≠ .Unused →
        CellMutex.try_lock dbg caller ⟨s⟩ = some (false, s)) ∧
      s.try_lock_exclusive dbg caller ≠ none ∧
      CellMutex.try_lock dbg caller ⟨s⟩ ≠ none ∧
      (s.borrow_count.count ≠ isizeMAX → s.try_lock_shared dbg ≠ none) ∧
      (s.borrow_count.count = isizeMAX → s.try_lock_shared dbg = none) := by
  have herr : s.borrow_count.state = .MutableBorrow →
      s.try_borrow_shared dbg =
        .err ⟨false, s.earliestBorrowLocation dbg⟩ s := by
    intro hmut
    unfold CellRwLock.try_borrow_shared
    rw [if_neg]
    simp [hmut]
  have hexclerr : s.borrow_count.state ≠ .Unused →
      s.try_borrow_exclusively dbg caller =
        .err ⟨true, s.earliestBorrowLocation dbg⟩ s := by
    intro hne
    unfold CellRwLock.try_borrow_exclusively
    rw [if_neg hne]
  have htryexclfalse : s.borrow_count.state ≠ .Unused →
      s.try_lock_exclusive dbg caller = some (false, s) := by
    intro hne
    unfold CellRwLock.try_lock_exclusive
    rw [hexclerr hne]
  have hexcl : s.try_lock_exclusive dbg caller ≠ none := by
    unfold CellRwLock.try_lock_exclusive
    rcases hres : s.try_borrow_exclusively dbg caller with t | ⟨e, t⟩ | m
    · simp
    · simp
    · exact absurd hres (fun hh => try_borrow_exclusively_fatal_inv hh)
  have hlockexcl : ∀ msg, s.lock_exclusive dbg caller = .fatal msg →
      msg = (BorrowFailError.mk true
        (s.earliestBorrowLocation dbg)).message := by
    intro msg hmsg
    unfold CellRwLock.lock_exclusive at hmsg
    rcases hres : s.try_borrow_exclusively dbg caller with t | ⟨e, t⟩ | m <;>
      rw [hres] at hmsg
    · cases hmsg
    · obtain ⟨-, he, -⟩ := try_borrow_exclusively_err_inv hres
      subst he
      injection hmsg with hm
      exact hm.symm
    · exact absurd hres (fun hh => try_borrow_exclusively_fatal_inv hh)
  refine ⟨?_, ?_, hlockexcl, hlockexcl, ?_, htryexclfalse, htryexclfalse,
    hexcl, hexcl, ?_, ?_⟩
  · intro msg hmsg
    unfold CellRwLock.lock_shared at hmsg
    rcases hres : s.try_borrow_shared dbg with t | ⟨e, t⟩ | m <;>
      rw [hres] at hmsg
    · cases hmsg
    · obtain ⟨-, he, -⟩ := try_borrow_shared_err_inv hres
      subst he
      injection hmsg with hm
      exact Or.inl hm.symm
    · obtain ⟨hm, -⟩ := try_borrow_shared_fatal_inv hres
      injection hmsg with hm2
      subst hm
      exact Or.inr hm2.symm
  · intro hmut
    unfold CellRwLock.lock_shared
    rw [herr hmut]
  · intro hmut
    unfold CellRwLock.try_lock_shared
    rw [herr hmut]
  · intro hmax
    unfold CellRwLock.try_lock_shared
    rcases hres : s.try_borrow_shared dbg with t | ⟨e, t⟩ | m
    · simp
    · simp
    · obtain ⟨-, hc⟩ := try_borrow_shared_fatal_inv hres
      exact absurd hc hmax
  · intro hmax
    have hst : s.borrow_count.state = .SharedBorrow := by
      rw [BorrowFlag.state_shared_iff]
      rw [hmax]
      exact isizeMAX_pos
    unfold CellRwLock.try_lock_shared CellRwLock.try_borrow_shared
    simp [hst, hmax]

/-- C5 witness: with an exclusive borrow held (count `-1`, location `4`),
`lock_shared` panics with the full diagnostic, while `try_lock_shared`
and `try_lock_exclusive` report the conflict as plain `false`. -/
theorem blocking_and_try_entry_points_witness :
    (CellRwLock.mk ⟨-1⟩ (some 4)).lock_shared true =
        .fatal (BorrowFailError.mk false (some 4)).message ∧
      (CellRwLock.mk ⟨-1⟩ (some 4)).try_lock_shared true =
        some (false, CellRwLock.mk ⟨-1⟩ (some 4)) ∧
      (CellRwLock.mk ⟨-1⟩ (some 4)).try_lock_exclusive true 0 =
        some (false, CellRwLock.mk ⟨-1⟩ (some 4)) :=
  ⟨(blocking_and_try_entry_points true 0 (CellRwLock.mk ⟨-1⟩ (some 4))).2.1
      (by decide),
    (blocking_and_try_entry_points true 0
        (CellRwLock.mk ⟨-1⟩ (some 4))).2.2.2.2.1 (by decide),
    (blocking_and_try_entry_points true 0
        (CellRwLock.mk ⟨-1⟩ (some 4))).2.2.2.2.2.1 (by decide)⟩

/-- The entry points of the lock interface, as a trace alphabet for
comparing the two build configurations. -/
inductive Op where
  | opLockShared
  | opTryLockShared
  | opLockExclusive (caller : Loc)
  | opTryLockExclusive (caller : Loc)
  | opUnlockShared
  | opUnlockExclusive
  | opIsLocked
  | opIsLockedExclusive
deriving DecidableEq, Repr

/-- What a caller observes from one entry-point call: an acquisition, a
try-result boolean, a release, a status-query answer, or a panic.  Panic
messages are deliberately not part of the observation: the location text
inside them is the one thing the debug switch is allowed to change. -/
inductive Obs where
  | acquired
  | tried (success : Bool)
  | released
  | answer (b : Bool)
  | fatalStop
deriving DecidableEq, Repr

/-- One entry-point call: the observation and, unless the call panicked,
the next state. -/
def step (dbg : Bool) (op : Op) (s : CellRwLock) : Obs × Option CellRwLock :=
  match op with
  | .opLockShared =>
      match s.lock_shared dbg with
      | .ok s' => (.acquired, some s')
      | .fatal _ => (.fatalStop, none)
  | .opTryLockShared =>
      match s.try_lock_shared dbg with
      | some (b, s') => (.tried b, some s')
      | none => (.fatalStop, none)
  | .opLockExclusive caller =>
      match s.lock_exclusive dbg caller with
      | .ok s' => (.acquired, some s')
      | .fatal _ => (.fatalStop, none)
  | .opTryLockExclusive caller =>
      match s.try_lock_exclusive dbg caller with
      | some (b, s') => (.tried b, some s')
      | none => (.fatalStop, none)
  | .opUnlockShared => (.released, some (s.unlock_shared dbg))
  | .opUnlockExclusive => (.released, some (s.unlock_exclusive dbg))
  | .opIsLocked => (.answer s.is_locked, some s)
  | .opIsLockedExclusive => (.answer s.is_locked_exclusive, some s)

/-- The observation trace of a sequence of entry-point calls; a panic
ends the trace. -/
def run (dbg : Bool) (s : CellRwLock) : List Op → List Obs
  | [] => []
  | op :: ops =>
      match (step dbg op s).2, (step dbg op s).1 with
      | some s', o => o :: run dbg s' ops
      | none, o => [o]

/-- Releasing a shared borrow always just decrements the count. -/
theorem unlock_shared_count (dbg : Bool) (t : CellRwLock) :
    (t.unlock_shared dbg).borrow_count = ⟨t.borrow_count.count - 1⟩ := by
  simp only [CellRwLock.unlock_shared]
  split_ifs <;> rfl

/-- Releasing an exclusive borrow always just increments the count. -/
theorem unlock_exclusive_count (dbg : Bool) (t : CellRwLock) :
    (t.unlock_exclusive dbg).borrow_count = ⟨t.borrow_count.count + 1⟩ := by
  simp only [CellRwLock.unlock_exclusive]
  split_ifs <;> rfl

/-- One-step simulation between the two build configurations: from states
with the same borrow counter, every entry point produces the same
observation and states whose borrow counters again agree. -/
theorem step_sim (dbg₁ dbg₂ : Bool) (op : Op) (f : BorrowFlag)
    (l₁ l₂ : Option Loc) :
    (step dbg₁ op ⟨f, l₁⟩).1 = (step dbg₂ op ⟨f, l₂⟩).1 ∧
      Option.map CellRwLock.borrow_count (step dbg₁ op ⟨f, l₁⟩).2 =
        Option.map CellRwLock.borrow_count (step dbg₂ op ⟨f, l₂⟩).2 := by
  cases op with
  | opLockShared =>
      by_cases hg : f.state = .Unused ∨ f.state = .SharedBorrow
      · by_cases hm : f.count = isizeMAX
        · simp [step, CellRwLock.lock_shared, CellRwLock.try_borrow_shared,
            hg, hm]
        · simp [step, CellRwLock.lock_shared, CellRwLock.try_borrow_shared,
            hg, hm]
      · simp [step, CellRwLock.lock_shared, CellRwLock.try_borrow_shared, hg]
  | opTryLockShared =>
      by_cases hg : f.state = .Unused ∨ f.state = .SharedBorrow
      · by_cases hm : f.count = isizeMAX
        · simp [step, CellRwLock.try_lock_shared,
            CellRwLock.try_borrow_shared, hg, hm]
        · simp [step, CellRwLock.try_lock_shared,
            CellRwLock.try_borrow_shared, hg, hm]
      · simp [step, CellRwLock.try_lock_shared, CellRwLock.try_borrow_shared,
          hg]
  | opLockExclusive caller =>
      by_cases hg : f.state = .Unused
      · have hc : f.count = 0 := (BorrowFlag.state_unused_iff f).mp hg
        simp [step, CellRwLock.lock_exclusive,
          CellRwLock.try_borrow_exclusively, hg, hc]
      · simp [step, CellRwLock.lock_exclusive,
          CellRwLock.try_borrow_exclusively, hg]
  | opTryLockExclusive caller =>
      by_cases hg : f.state = .Unused
      · have hc : f.count = 0 := (BorrowFlag.state_unused_iff f).mp hg
        simp [step, CellRwLock.try_lock_exclusive,
          CellRwLock.try_borrow_exclusively, hg, hc]
      · simp [step, CellRwLock.try_lock_exclusive,
          CellRwLock.try_borrow_exclusively, hg]
  | opUnlockShared =>
      refine ⟨rfl, ?_⟩
      simp [step, unlock_shared_count]
  | opUnlockExclusive =>
      refine ⟨rfl, ?_⟩
      simp [step, unlock_exclusive_count]
  | opIsLocked =>
      exact ⟨rfl, rfl⟩
  | opIsLockedExclusive =>
      exact ⟨rfl, rfl⟩

/-- Trace simulation: from states with the same borrow counter, the two
build configurations produce identical observation traces. -/
theorem run_sim (ops : List Op) :
    ∀ s₁ s₂ : CellRwLock, s₁.borrow_count = s₂.borrow_count →
      run true s₁ ops = run false s₂ ops := by
  induction ops with
  | nil =>
      intro s₁ s₂ _
      rfl
  | cons op ops ih =>
      intro s₁ s₂ h
      obtain ⟨f₁, l₁⟩ := s₁
      obtain ⟨f₂, l₂⟩ := s₂
      have hf : f₁ = f₂ := h
      subst hf
      obtain ⟨hobs, hnext⟩ := step_sim true false op f₁ l₁ l₂
      rcases h1 : (step true op ⟨f₁, l₁⟩).2 with _ | t₁ <;>
        rcases h2 : (step false op ⟨f₁, l₂⟩).2 with _ | t₂ <;>
          rw [h1, h2] at hnext
      · simp only [run, h1, h2]
        rw [hobs]
      · cases hnext
      · cases hnext
      · simp only [run, h1, h2]
        rw [hobs]
        congr 1
        apply ih
        simpa using hnext

/-- C9: the build-time diagnostics switch never changes admission logic —
for every sequence of entry-point calls, the diagnostics-enabled and
diagnostics-disabled locks (started from states with the same counter)
produce identical observation traces: the same success/failure results
and the same `is_locked` / `is_locked_exclusive` answers, with only panic
message content outside the comparison. -/
theorem debug_switch_preserves_admission (ops : List Op)
    (s₁ s₂ : CellRwLock) (h : s₁.borrow_count = s₂.borrow_count) :
    run true s₁ ops = run false s₂ ops ∧
      s₁.is_locked = s₂.is_locked ∧
      s₁.is_locked_exclusive = s₂.is_locked_exclusive := by
  refine ⟨run_sim ops s₁ s₂ h, ?_, ?_⟩
  · unfold CellRwLock.is_locked
    rw [h]
  · unfold CellRwLock.is_locked_exclusive
    rw [h]

/-- C9 witness: a six-call trace from the fresh lock, exercising
exclusive acquire, status queries, a failing shared try, release, and a
succeeding shared try, agrees between the two configurations. -/
theorem debug_switch_preserves_admission_witness :
    (run true CellRwLock.INIT
        [Op.opTryLockExclusive 3, Op.opIsLocked, Op.opTryLockShared,
          Op.opUnlockExclusive, Op.opTryLockShared,
          Op.opIsLockedExclusive] =
      run false CellRwLock.INIT
        [Op.opTryLockExclusive 3, Op.opIsLocked, Op.opTryLockShared,
          Op.opUnlockExclusive, Op.opTryLockShared,
          Op.opIsLockedExclusive]) ∧
      CellRwLock.INIT.is_locked = CellRwLock.INIT.is_locked ∧
      CellRwLock.INIT.is_locked_exclusive =
        CellRwLock.INIT.is_locked_exclusive :=
  debug_switch_preserves_admission _ CellRwLock.INIT CellRwLock.INIT rfl
